/-
Verification of the ForenX-NGINX Sentinel log-forensics dashboard.

The repository ships the presentation layer (src/frontend/dashboard.js and
the two unnamed dashboard variants) together with deployment scaffolding;
the ingestion/classification backend (uvicorn main:app) is not part of the
source tree.  Frontend functions are embedded directly from the JavaScript
source; backend components are modelled from the specification, as marked
in their doc comments.

Conventions: JavaScript strings are embedded as List Char, nullable values
as Option, JavaScript numbers as Nat / Int / Rat as appropriate to the use
site (all uses here are exact integer or decimal arithmetic).
-/
import Mathlib

namespace ForenX

/-! ### Severity classification (C8): embedded from the dashboard sources -/

/-- Severity levels named by the Pro dashboard's getSeverityLevel. -/
inductive Severity
  | low
  | medium
  | high
deriving DecidableEq

/-- Bootstrap contextual classes used by the inline severity computations. -/
inductive BootClass
  | info
  | warning
  | danger
deriving DecidableEq

/-- Function getSeverityLevel from src/unnamed/part_001 lines 697-701:
high when confidence >= 0.8, medium when confidence >= 0.5, else low. -/
def getSeverityLevel (confidence : ℚ) : Severity :=
  if 4 / 5 ≤ confidence then .high
  else if 1 / 2 ≤ confidence then .medium
  else .low

/-- JavaScript Math.round for the nonnegative values used here:
floor of the argument plus one half. -/
def jsRound (q : ℚ) : Int := ⌊q + 1 / 2⌋

/-- Inline severity computation in updateAlertsTable of
src/frontend/dashboard.js lines 853-888: confidencePercent is
Math.round((alert.confidence || 0.5) * 100) (a falsy confidence of 0
defaults to 0.5); the class starts as warning, becomes danger when the
percent exceeds 80 and info when it is below 50. -/
def alertSeverityClassMain (confidence : ℚ) : BootClass :=
  let c := if confidence = 0 then 1 / 2 else confidence
  let p := jsRound (c * 100)
  if p < 50 then .info
  else if 80 < p then .danger
  else .warning

/-- Inline severity computation in updateAlertsTable of
src/unnamed/part_002 lines 549-584: the class starts as warning, becomes
danger when confidence > 0.8 and info when confidence < 0.5 (no rounding,
no falsy default). -/
def alertSeverityClassLegacy (confidence : ℚ) : BootClass :=
  if confidence < 1 / 2 then .info
  else if 4 / 5 < confidence then .danger
  else .warning

/-- Correspondence between the Bootstrap classes and the Pro severity
levels asserted by the claim: danger is high, warning is medium, info is
low. -/
def severityOfClass : BootClass → Severity
  | .danger => .high
  | .warning => .medium
  | .info => .low

/-! ### truncateText (C9): embedded from the dashboard sources -/

/-- JavaScript a || b for a possibly absent value. -/
def jsOr {α : Type} (x : Option α) (d : α) : α := x.getD d

/-- Function truncateText from src/frontend/dashboard.js lines 1670-1674
and src/unnamed/part_002 lines 763-767: a falsy (absent or empty) text
renders as a dash; text within the limit is returned unchanged; longer
text is cut to maxLength - 3 characters with a three-dot ellipsis
appended (String.substring clamps a negative end index to 0, as natural
subtraction does here). -/
def truncateText (text : Option (List Char)) (maxLength : Nat) : List Char :=
  match text with
  | none => ['-']
  | some t =>
    if t.isEmpty then ['-']
    else if t.length ≤ maxLength then t
    else t.take (maxLength - 3) ++ ['.', '.', '.']

/-! ### addRealtimeLog (C10): embedded from the dashboard sources -/

/-- Fields of a websocket log message read by addRealtimeLog. -/
structure LogData where
  client_ip : Option (List Char)
  method : Option (List Char)
  endpoint : Option (List Char)
  status : Option Nat

/-- One rendered row of the real-time table. -/
structure RtRow where
  time : List Char
  client_ip : List Char
  method : List Char
  endpoint : List Char
  status : Nat

/-- JavaScript x || d for a number: 0 is falsy and also defaults. -/
def jsOrNat (x : Option Nat) (d : Nat) : Nat :=
  match x with
  | none => d
  | some 0 => d
  | some s => s

/-- Row construction inside addRealtimeLog, src/frontend/dashboard.js
lines 1992-2015: client_ip defaults to "Unknown", method to "GET",
endpoint is truncated at 40, status defaults to 200. -/
def renderRtRow (time : List Char) (d : LogData) : RtRow :=
  { time := time
    client_ip := jsOr d.client_ip ['U', 'n', 'k', 'n', 'o', 'w', 'n']
    method := jsOr d.method ['G', 'E', 'T']
    endpoint := truncateText (some (jsOr d.endpoint [])) 40
    status := jsOrNat d.status 200 }

/-- Function addRealtimeLog from src/frontend/dashboard.js lines
1992-2015 (src/unnamed/part_002 lines 1058-1080 is identical but for the
falsy defaults): the new row is inserted before the first child, and when
the row count exceeds 100 the last (oldest) row is removed. -/
def addRealtimeLog (time : List Char) (d : LogData) (table : List RtRow) : List RtRow :=
  let t := renderRtRow time d :: table
  if 100 < t.length then t.dropLast else t

/-! ### Parser and LogRecord (C1): modelled from the spec -/

/-- Modelled from the spec: ParseError taxonomy of section 4.1; the
parser itself (backend main:app) is not under src/. -/
inductive ParseError
  | UnmatchedFormat
  | InvalidTimestamp
  | InvalidStatusCode
  | TruncatedLine
deriving DecidableEq

/-- Modelled from the spec: the normalized LogRecord of section 3.
status_code and bytes_sent are kept as integers so that the range
invariants are meaningful facts about parser output rather than facts of
the types. -/
structure LogRecord where
  timestamp : Nat
  client_ip : List Char
  method : List Char
  path : List Char
  query : List Char
  protocol_version : List Char
  status_code : Int
  bytes_sent : Int
  referrer : List Char
  user_agent : List Char
  response_time_ms : Option Int
  source_file_id : Nat
  line_offset : Nat
deriving DecidableEq

/-- Modelled from the spec: the named capture groups a format match
extracts from one raw line before validation (section 4.1); optional
fields are those a loose format may fail to capture or fail to parse
numerically. -/
structure RawFields where
  truncated : Bool
  timestamp : Option Int
  client_ip : Option (List Char)
  method : List Char
  path : List Char
  query : List Char
  protocol_version : List Char
  status_code : Option Int
  bytes_sent : Option Int
  referrer : List Char
  user_agent : List Char
  response_time_ms : Option Int
  source_file_id : Nat
  line_offset : Nat
deriving DecidableEq

/-- Modelled from the spec: the parser of section 4.1; the backend that
implements it is not under src/.  The argument is the result of format
matching (none when no candidate format matched).  Mandatory fields
missing, numeric failures and range violations all downgrade the line to
a ParseError, never to a record with synthetic defaults; a negative
bytes_sent is a numeric extraction failure classified as
UnmatchedFormat. -/
def parseLine (raw : Option RawFields) : Except ParseError LogRecord :=
  match raw with
  | none => .error .UnmatchedFormat
  | some f =>
    if f.truncated then .error .TruncatedLine
    else
      match f.timestamp, f.client_ip, f.status_code, f.bytes_sent with
      | some ts, some ip, some sc, some bs =>
        if ts < 0 then .error .InvalidTimestamp
        else if sc < 100 ∨ 599 < sc then .error .InvalidStatusCode
        else if bs < 0 then .error .UnmatchedFormat
        else if (f.response_time_ms.getD 0) < 0 then .error .UnmatchedFormat
        else .ok
          { timestamp := ts.toNat
            client_ip := ip
            method := f.method
            path := f.path
            query := f.query
            protocol_version := f.protocol_version
            status_code := sc
            bytes_sent := bs
            referrer := f.referrer
            user_agent := f.user_agent
            response_time_ms := f.response_time_ms
            source_file_id := f.source_file_id
            line_offset := f.line_offset }
      | _, _, _, _ => .error .UnmatchedFormat

/-! ### Alert emitter (C2): modelled from the spec -/

/-- Attack type enumeration of the spec's Alert data model. -/
inductive AttackType
  | SQLInjection
  | XSS
  | PathTraversal
  | BruteForce
  | DoS
  | DataExfiltration
deriving DecidableEq

/-- Modelled from the spec: a positive classification handed to the
alert emitter (section 4.5); the emitter itself is not under src/. -/
structure Trigger where
  attack_type : AttackType
  client_ip : List Char
  endpoint : List Char
  timestamp : Nat
  confidence : ℚ
deriving DecidableEq

/-- Modelled from the spec: a persisted Alert (section 3); its identity
is the key and timestamp tuple the deterministic id is hashed from. -/
structure Alert where
  attack_type : AttackType
  client_ip : List Char
  endpoint : List Char
  timestamp : Nat
  confidence : ℚ
deriving DecidableEq

/-- Default coalescing interval of 60 seconds, in milliseconds. -/
def coalescingIntervalMs : Nat := 60000

/-- Modelled from the spec: a stored alert absorbs a later trigger when
the (attack_type, client_ip, endpoint) identity matches and the trigger
falls within one coalescing interval after the alert. -/
def coalesces (a : Alert) (t : Trigger) : Prop :=
  a.attack_type = t.attack_type ∧ a.client_ip = t.client_ip ∧ a.endpoint = t.endpoint ∧
    a.timestamp ≤ t.timestamp ∧ t.timestamp ≤ a.timestamp + coalescingIntervalMs

instance (a : Alert) (t : Trigger) : Decidable (coalesces a t) := by
  unfold coalesces; infer_instance

/-- Alert persisted for a fresh, un-coalesced trigger. -/
def alertOfTrigger (t : Trigger) : Alert :=
  { attack_type := t.attack_type
    client_ip := t.client_ip
    endpoint := t.endpoint
    timestamp := t.timestamp
    confidence := t.confidence }

/-- Modelled from the spec: the emitter's deduplication step (section
4.5).  A trigger that coalesces with a stored alert merges into it,
raising its confidence to the maximum observed; otherwise the trigger is
appended as a new alert. -/
def emitTrigger (store : List Alert) (t : Trigger) : List Alert :=
  if store.any fun a => decide (coalesces a t) then
    store.map fun a =>
      if coalesces a t then { a with confidence := max a.confidence t.confidence } else a
  else store ++ [alertOfTrigger t]

/-! ### Signature classifier (C3): modelled from the spec -/

/-- Boolean test that the first list starts the second. -/
def startsWithChars : List Char → List Char → Bool
  | [], _ => true
  | _ :: _, [] => false
  | p :: ps, c :: cs => p == c && startsWithChars ps cs

/-- Boolean substring test: the pattern occurs somewhere in the text. -/
def containsChars (pat : List Char) : List Char → Bool
  | [] => startsWithChars pat []
  | c :: cs => startsWithChars pat (c :: cs) || containsChars pat cs

/-- Lower-casing used for case-insensitive signature matching. -/
def toLowerChars (l : List Char) : List Char := l.map Char.toLower

/-- Modelled from the spec: one signature rule with its declared base
confidence (section 4.3). -/
structure SigRule where
  attack : AttackType
  pattern : List Char
  base : ℚ
deriving DecidableEq

/-- Modelled from the spec: representative rule sets for SQL injection
(quote, boolean, union, comment tokens), XSS (script and event-handler
markers) and path traversal (dot-dot sequences and an encoded variant);
the concrete rule table lives in the backend, which is not under src/. -/
def sigRules : List SigRule :=
  [ { attack := .SQLInjection, pattern := ['\'', ' ', 'o', 'r', ' ', '\''], base := 7 / 10 }
  , { attack := .SQLInjection, pattern := ['u', 'n', 'i', 'o', 'n', ' ', 's', 'e', 'l', 'e', 'c', 't'], base := 8 / 10 }
  , { attack := .SQLInjection, pattern := ['-', '-'], base := 3 / 10 }
  , { attack := .XSS, pattern := ['<', 's', 'c', 'r', 'i', 'p', 't'], base := 8 / 10 }
  , { attack := .XSS, pattern := ['o', 'n', 'e', 'r', 'r', 'o', 'r', '='], base := 6 / 10 }
  , { attack := .PathTraversal, pattern := ['.', '.', '/'], base := 6 / 10 }
  , { attack := .PathTraversal, pattern := ['%', '2', 'e', '%', '2', 'e', '/'], base := 6 / 10 } ]

/-- A positive signature match on one record. -/
structure SignatureHit where
  attack : AttackType
  pattern : List Char
  base : ℚ
deriving DecidableEq

/-- Modelled from the spec: the stateless classifier of section 4.3; it
matches every rule against the lower-cased decoded path and raw query of
the record and nothing else (no randomness, no external calls). -/
def classify (r : LogRecord) : List SignatureHit :=
  (sigRules.filter fun rule =>
      containsChars rule.pattern (toLowerChars (r.path ++ r.query))).map
    fun rule => { attack := rule.attack, pattern := rule.pattern, base := rule.base }

/-- Modelled from the spec: bounded additive combination of the matched
base confidences, capped at 0.99 pre-corroboration. -/
def combinedConfidence (hits : List SignatureHit) : ℚ :=
  min ((hits.map fun h => h.base).sum) (99 / 100)

/-! ### Metrics aggregator (C4, C5): modelled from the spec -/

/-- Granularity levels of the metrics aggregator. -/
inductive Granularity
  | hour
  | day
  | week
  | month
deriving DecidableEq

/-- Modelled from the spec: slot duration per granularity in
milliseconds; a month is taken as 30 days, which the spec leaves to
configuration. -/
def slotMs : Granularity → Nat
  | .hour => 3600000
  | .day => 86400000
  | .week => 604800000
  | .month => 2592000000

/-- Modelled from the spec: the counters of one MetricsBucket (section
3) that the round-trip claim ranges over. -/
structure MetricsBucket where
  request_count : Nat
  error_count : Nat
  bytes_total : Int
deriving DecidableEq

/-- The zero-valued bucket used to fill gaps. -/
def zeroBucket : MetricsBucket :=
  { request_count := 0, error_count := 0, bytes_total := 0 }

/-- Error classification for the error_count counter: 4xx and 5xx. -/
def isError (r : LogRecord) : Bool := decide (400 ≤ r.status_code)

/-- Modelled from the spec: the incremental per-record update of one
bucket's counters (section 4.6). -/
def bucketUpdate (b : MetricsBucket) (r : LogRecord) : MetricsBucket :=
  { request_count := b.request_count + 1
    error_count := b.error_count + (if isError r then 1 else 0)
    bytes_total := b.bytes_total + r.bytes_sent }

/-- Slot index a timestamp falls into at a granularity. -/
def slotOf (g : Granularity) (ts : Nat) : Nat := ts / slotMs g

/-- Modelled from the spec: the bucket for one slot, as the incremental
updates of exactly the events whose timestamp falls into the slot,
starting from the zero bucket (created on first event in the slot). -/
def bucketOf (g : Granularity) (events : List LogRecord) (s : Nat) : MetricsBucket :=
  (events.filter fun r => slotOf g r.timestamp == s).foldl bucketUpdate zeroBucket

/-- Modelled from the spec: query(range, granularity) returns one bucket
per slot covering the range, with gaps filled by zero-valued buckets (a
slot with no events folds over the empty list). -/
def query (g : Granularity) (events : List LogRecord) (startSlot len : Nat) :
    List MetricsBucket :=
  (List.range len).map fun i => bucketOf g events (startSlot + i)

/-! ### Behavioral classifier (C6): modelled from the spec -/

/-- Failed-auth test: status 401 or 403. -/
def isAuthFailure (r : LogRecord) : Bool :=
  r.status_code == 401 || r.status_code == 403

/-- Sliding-window membership: the timestamp lies in the interval from
now minus the window to now. -/
def inWindow (now window ts : Nat) : Bool :=
  decide (now ≤ ts + window) && decide (ts ≤ now)

/-- Modelled from the spec: the ClassifierWindow counter
status_401_403_count for one IP, as the number of failed-auth events of
that IP inside the active window. -/
def authFailCount (events : List LogRecord) (ip : List Char) (now window : Nat) : Nat :=
  (events.filter fun r =>
      r.client_ip == ip && isAuthFailure r && inWindow now window r.timestamp).length

/-- Modelled from the spec: brute-force confidence scales with the
count over threshold ratio, capped at 1.0 (section 4.4). -/
def bruteForceConfidence (tAuth n : Nat) : ℚ :=
  min ((n : ℚ) / (tAuth : ℚ)) 1

/-- A positive behavioral classification. -/
structure BehaviorHit where
  attack : AttackType
  client_ip : List Char
  confidence : ℚ
deriving DecidableEq

/-- Modelled from the spec: the brute-force arm of observe (section
4.4); the behavioral classifier is not under src/.  It fires exactly
when the failed-auth count for the IP exceeds the threshold. -/
def observeBruteForce (tAuth : Nat) (events : List LogRecord) (ip : List Char)
    (now window : Nat) : List BehaviorHit :=
  let n := authFailCount events ip now window
  if tAuth < n then
    [{ attack := .BruteForce, client_ip := ip, confidence := bruteForceConfidence tAuth n }]
  else []

/-! ### Batch ingestion summary (C7): modelled from the spec -/

/-- True when the line parses to a record. -/
def parsedOk (raw : Option RawFields) : Bool :=
  match parseLine raw with
  | .ok _ => true
  | .error _ => false

/-- Modelled from the spec: one ingested source file: its id, the
format-match result of each line, and its raw content for the integrity
stamp. -/
structure SourceFile where
  id : Nat
  lines : List (Option RawFields)
  content : List Char

/-- Modelled from the spec: the Integrity Stamp's deterministic content
hash per source file (section 2); embodied here as a 32-bit rolling
polynomial hash, the backend implementation being absent from src/. -/
def contentHash (content : List Char) : Nat :=
  content.foldl (fun h c => (h * 31 + c.toNat) % 4294967296) 5381

/-- The per-file summary of batch ingestion (section 6): exactly the
fields lines_total, parsed_ok, parse_errors, content_hash. -/
structure FileSummary where
  lines_total : Nat
  parsed_ok : Nat
  parse_errors : Nat
  content_hash : Nat
deriving DecidableEq

/-- Modelled from the spec: the summary computed for one ingested file. -/
def summarizeFile (f : SourceFile) : FileSummary :=
  { lines_total := f.lines.length
    parsed_ok := (f.lines.filter fun l => parsedOk l).length
    parse_errors := (f.lines.filter fun l => !parsedOk l).length
    content_hash := contentHash f.content }

/-- Modelled from the spec: batch mode processes a finite sequence of
files and returns a per-file summary for each. -/
def batchIngest (files : List SourceFile) : List FileSummary :=
  files.map summarizeFile

/-! ## Theorems -/

/-- C8: the dashboards' severity computations are NOT equivalent at the
boundary 0.8: the Pro getSeverityLevel (confidence >= 0.8) classifies a
confidence of exactly 0.8 as high, while both inline computations
(strict comparisons against 80 percent and 0.8) classify it as medium
(warning), refuting the claimed agreement at that boundary value. -/
theorem alertSeverity_boundary_cex :
    getSeverityLevel (4 / 5) = Severity.high ∧
    severityOfClass (alertSeverityClassMain (4 / 5)) = Severity.medium ∧
    severityOfClass (alertSeverityClassLegacy (4 / 5)) = Severity.medium := by
  refine ⟨?_, ?_, ?_⟩
  · norm_num [getSeverityLevel]
  · norm_num [alertSeverityClassMain, jsRound, severityOfClass]
  · norm_num [alertSeverityClassLegacy, severityOfClass]

/-- C8 (amended): on confidences in [0, 1] the part_002 inline severity
computation agrees with getSeverityLevel except exactly at 0.8, and the
dashboard.js inline computation agrees except at 0 (falsy default to
0.5), on the rounding band [0.495, 0.5) and on the band [0.8, 0.805)
(integer-percent rounding plus the strict comparison); under the
corresponding danger-high, warning-medium, info-low mapping. -/
theorem alertSeverity_agreement (c : ℚ) (h0 : 0 ≤ c) (h1 : c ≤ 1) :
    (c ≠ 4 / 5 → severityOfClass (alertSeverityClassLegacy c) = getSeverityLevel c) ∧
    (c ≠ 0 → ¬(99 / 200 ≤ c ∧ c < 1 / 2) → ¬(4 / 5 ≤ c ∧ c < 161 / 200) →
      severityOfClass (alertSeverityClassMain c) = getSeverityLevel c) := by
  constructor
  · intro hne
    unfold alertSeverityClassLegacy getSeverityLevel
    rcases lt_or_le c (1 / 2) with hA | hA
    · have hn1 : ¬ (4 / 5 ≤ c) := by linarith
      have hn2 : ¬ (1 / 2 ≤ c) := not_le.mpr hA
      rw [if_pos hA, if_neg hn1, if_neg hn2]
      rfl
    · have hnlt : ¬ (c < 1 / 2) := not_lt.mpr hA
      rcases lt_or_le (4 / 5 : ℚ) c with hB | hB
      · have hge : 4 / 5 ≤ c := le_of_lt hB
        rw [if_neg hnlt, if_pos hB, if_pos hge]
        rfl
      · have hlt : c < 4 / 5 := lt_of_le_of_ne hB hne
        have hnb : ¬ (4 / 5 < c) := not_lt.mpr hB
        have hnh : ¬ (4 / 5 ≤ c) := not_le.mpr hlt
        rw [if_neg hnlt, if_neg hnb, if_neg hnh, if_pos hA]
        rfl
  · intro hz hb1 hb2
    have hmain : alertSeverityClassMain c =
        (if ⌊c * 100 + 1 / 2⌋ < 50 then BootClass.info
         else if 80 < ⌊c * 100 + 1 / 2⌋ then BootClass.danger
         else BootClass.warning) := by
      simp only [alertSeverityClassMain, jsRound, if_neg hz]
    rw [hmain]
    unfold getSeverityLevel
    rcases lt_or_le c (99 / 200) with hA | hA
    · have hp : ⌊c * 100 + 1 / 2⌋ < 50 := Int.floor_lt.mpr (by push_cast; linarith)
      have hn1 : ¬ (4 / 5 ≤ c) := by linarith
      have hn2 : ¬ (1 / 2 ≤ c) := by intro h; linarith
      rw [if_pos hp, if_neg hn1, if_neg hn2]
      rfl
    · have h12 : 1 / 2 ≤ c := by
        by_contra hcon
        exact hb1 ⟨hA, not_le.mp hcon⟩
      have hp1 : ¬ (⌊c * 100 + 1 / 2⌋ < 50) := by
        rw [Int.floor_lt]
        push_cast
        intro h
        linarith
      rcases lt_or_le c (161 / 200) with hB | hB
      · have hp2 : ¬ (80 < ⌊c * 100 + 1 / 2⌋) := by
          intro h
          have h81 : (81 : Int) ≤ ⌊c * 100 + 1 / 2⌋ := by omega
          have hcast := Int.le_floor.mp h81
          push_cast at hcast
          linarith
        have hnh : ¬ (4 / 5 ≤ c) := fun hcon => hb2 ⟨hcon, hB⟩
        rw [if_neg hp1, if_neg hp2, if_neg hnh, if_pos h12]
        rfl
      · have hp2 : 80 < ⌊c * 100 + 1 / 2⌋ := by
          have h81 : (81 : Int) ≤ ⌊c * 100 + 1 / 2⌋ := Int.le_floor.mpr (by push_cast; linarith)
          omega
        have hh : 4 / 5 ≤ c := by linarith
        rw [if_neg hp1, if_pos hp2, if_pos hh]
        rfl

/-- Witness for the amended C8 theorem at confidence 0.9, where all
three computations agree on high. -/
theorem alertSeverity_agreement_witness :
    severityOfClass (alertSeverityClassLegacy (9 / 10)) = getSeverityLevel (9 / 10) ∧
    severityOfClass (alertSeverityClassMain (9 / 10)) = getSeverityLevel (9 / 10) :=
  ⟨(alertSeverity_agreement (9 / 10) (by norm_num) (by norm_num)).1 (by norm_num),
   (alertSeverity_agreement (9 / 10) (by norm_num) (by norm_num)).2
     (by norm_num) (by norm_num) (by norm_num)⟩

/-- C9: for non-empty text and maxLength at least 3, truncateText
returns the text unchanged when it fits, and otherwise a string of
length exactly maxLength that is a prefix of the text followed by a
three-dot ellipsis; absent or empty text renders as a dash. -/
theorem truncateText_spec (t : List Char) (maxLength : Nat) (hne : t ≠ [])
    (hml : 3 ≤ maxLength) :
    (t.length ≤ maxLength → truncateText (some t) maxLength = t) ∧
    (maxLength < t.length →
      (truncateText (some t) maxLength).length = maxLength ∧
      truncateText (some t) maxLength = t.take (maxLength - 3) ++ ['.', '.', '.']) ∧
    truncateText none maxLength = ['-'] ∧
    truncateText (some []) maxLength = ['-'] := by
  have hie : t.isEmpty = false := by
    cases t with
    | nil => exact absurd rfl hne
    | cons a as => rfl
  refine ⟨?_, ?_, rfl, rfl⟩
  · intro hle
    simp [truncateText, hie, hle]
  · intro hgt
    have hnle : ¬ t.length ≤ maxLength := not_le.mpr hgt
    constructor
    · simp [truncateText, hie, hnle, List.length_take]
      omega
    · simp [truncateText, hie, hnle]

/-- Witness for the C9 theorem: a four-character text truncated to the
minimum length 3 is exactly the ellipsis. -/
theorem truncateText_spec_witness :
    (truncateText (some ['a', 'b', 'c', 'd']) 3).length = 3 ∧
    truncateText (some ['a', 'b', 'c', 'd']) 3 =
      (['a', 'b', 'c', 'd'].take (3 - 3)) ++ ['.', '.', '.'] :=
  ⟨((truncateText_spec ['a', 'b', 'c', 'd'] 3 (by decide) (by decide)).2.1 (by decide)).1,
   ((truncateText_spec ['a', 'b', 'c', 'd'] 3 (by decide) (by decide)).2.1 (by decide)).2⟩

/-- One call of addRealtimeLog keeps the table at no more than 100
rows. -/
theorem addRealtimeLog_length_le (time : List Char) (d : LogData) (t : List RtRow)
    (h : t.length ≤ 100) : (addRealtimeLog time d t).length ≤ 100 := by
  simp only [addRealtimeLog]
  split
  · simpa [List.length_dropLast] using h
  · rename_i hc
    simp only [not_lt, List.length_cons] at hc
    simp only [List.length_cons]
    omega

/-- Folding addRealtimeLog over any sequence of calls preserves the
100-row bound. -/
theorem foldl_addRealtimeLog_le (calls : List (List Char × LogData)) :
    ∀ table : List RtRow, table.length ≤ 100 →
      (calls.foldl (fun acc c => addRealtimeLog c.1 c.2 acc) table).length ≤ 100 := by
  induction calls with
  | nil => intro table h; simpa using h
  | cons c cs ih =>
    intro table h
    exact ih _ (addRealtimeLog_length_le c.1 c.2 table h)

/-- C10: starting from a table of at most 100 rows, every
addRealtimeLog call inserts the rendered row at the head, and after
every call of any call sequence the row count is at most 100. -/
theorem addRealtimeLog_bounded (calls : List (List Char × LogData)) (table : List RtRow)
    (h : table.length ≤ 100) :
    (∀ time d t, (addRealtimeLog time d t).head? = some (renderRtRow time d)) ∧
    (∀ n, ((calls.take n).foldl (fun acc c => addRealtimeLog c.1 c.2 acc) table).length ≤ 100) := by
  constructor
  · intro time d t
    simp only [addRealtimeLog]
    split
    · cases t with
      | nil => simp_all
      | cons b bs => simp [List.dropLast]
    · simp
  · intro n
    exact foldl_addRealtimeLog_le (calls.take n) table h

/-- Witness for the C10 theorem: one concrete call on the empty table
stays within the bound. -/
theorem addRealtimeLog_bounded_witness :
    ((([(([] : List Char), (⟨none, none, none, none⟩ : LogData))].take 1).foldl
        (fun acc c => addRealtimeLog c.1 c.2 acc) ([] : List RtRow)).length ≤ 100) :=
  (addRealtimeLog_bounded [(([] : List Char), (⟨none, none, none, none⟩ : LogData))]
      [] (by decide)).2 1

/-- Any record the parser returns took the validated branch: its
status_code and bytes_sent are the extracted values and satisfy the
range invariants. -/
theorem parseLine_ok_inv (f : RawFields) (rec : LogRecord)
    (h : parseLine (some f) = .ok rec) :
    f.status_code = some rec.status_code ∧ f.bytes_sent = some rec.bytes_sent ∧
      0 ≤ rec.bytes_sent ∧ 100 ≤ rec.status_code ∧ rec.status_code ≤ 599 := by
  unfold parseLine at h
  by_cases ht : f.truncated = true
  · simp [ht] at h
  · rcases hts : f.timestamp with _ | ts <;>
      rcases hip : f.client_ip with _ | ip <;>
        rcases hsc : f.status_code with _ | sc <;>
          rcases hbs : f.bytes_sent with _ | bs <;>
            simp only [ht, hts, hip, hsc, hbs, if_false, Bool.false_eq_true] at h
    all_goals try exact absurd h (by simp)
    split_ifs at h with hg1 hg2 hg3 hg4 <;> simp at h
    push_neg at hg2
    subst h
    refine ⟨rfl, rfl, ?_, ?_, ?_⟩ <;> simp <;> omega

/-- C1: every record that exists satisfies the bounds 0 <= bytes_sent
and 100 <= status_code <= 599, and input whose extracted status or
bytes violate the bounds always yields a ParseError, never a record
with defaulted values. -/
theorem parse_bounds :
    (∀ (raw : Option RawFields) (rec : LogRecord), parseLine raw = .ok rec →
        0 ≤ rec.bytes_sent ∧ 100 ≤ rec.status_code ∧ rec.status_code ≤ 599) ∧
    (∀ (f : RawFields) (sc bs : Int), f.status_code = some sc → f.bytes_sent = some bs →
        sc < 100 ∨ 599 < sc ∨ bs < 0 → ∃ e, parseLine (some f) = .error e) := by
  constructor
  · intro raw rec h
    cases raw with
    | none => simp [parseLine] at h
    | some f => exact (parseLine_ok_inv f rec h).2.2
  · intro f sc bs hsc hbs hbad
    cases hres : parseLine (some f) with
    | error e => exact ⟨e, rfl⟩
    | ok rec =>
      exfalso
      obtain ⟨hsc2, hbs2, hb0, hb1, hb2⟩ := parseLine_ok_inv f rec hres
      rw [hsc] at hsc2
      rw [hbs] at hbs2
      have e1 : sc = rec.status_code := Option.some.inj hsc2
      have e2 : bs = rec.bytes_sent := Option.some.inj hbs2
      omega

/-- Witness for the C1 theorem: a well-formed raw line parses to a
record whose fields satisfy the bounds. -/
theorem parse_bounds_witness :
    0 ≤ (⟨0, ['a'], [], [], [], [], 200, 512, [], [], none, 0, 0⟩ : LogRecord).bytes_sent ∧
      100 ≤ (⟨0, ['a'], [], [], [], [], 200, 512, [], [], none, 0, 0⟩ : LogRecord).status_code ∧
      (⟨0, ['a'], [], [], [], [], 200, 512, [], [], none, 0, 0⟩ : LogRecord).status_code ≤ 599 :=
  parse_bounds.1
    (some ⟨false, some 0, some ['a'], [], [], [], [], some 200, some 512, [], [], none, 0, 0⟩)
    ⟨0, ['a'], [], [], [], [], 200, 512, [], [], none, 0, 0⟩ rfl

/-- C2: two triggers of identical (attack_type, client_ip, endpoint)
whose timestamps lie within one coalescing interval produce exactly one
persisted Alert; its identity (key fields and timestamp) is that of the
earliest trigger and its confidence is the maximum of the two. -/
theorem emit_coalesce (t₁ t₂ : Trigger)
    (hk : t₁.attack_type = t₂.attack_type)
    (hip : t₁.client_ip = t₂.client_ip)
    (hep : t₁.endpoint = t₂.endpoint)
    (ho : t₁.timestamp ≤ t₂.timestamp)
    (hw : t₂.timestamp ≤ t₁.timestamp + coalescingIntervalMs) :
    emitTrigger (emitTrigger [] t₁) t₂ =
      [{ alertOfTrigger t₁ with confidence := max t₁.confidence t₂.confidence }] := by
  have h1 : emitTrigger [] t₁ = [alertOfTrigger t₁] := by simp [emitTrigger]
  have hco : coalesces (alertOfTrigger t₁) t₂ := ⟨hk, hip, hep, ho, hw⟩
  rw [h1]
  have hany : (([alertOfTrigger t₁]).any fun a => decide (coalesces a t₂)) = true := by
    simp [hco]
  unfold emitTrigger
  rw [if_pos hany]
  simp [hco]
  rfl

/-- Witness for the C2 theorem: two concrete brute-force triggers 29
seconds apart coalesce into one alert carrying the larger confidence. -/
theorem emit_coalesce_witness :
    emitTrigger (emitTrigger [] (⟨.BruteForce, ['a'], ['/'], 1000, 1 / 2⟩ : Trigger))
        (⟨.BruteForce, ['a'], ['/'], 30000, 9 / 10⟩ : Trigger) =
      [{ alertOfTrigger (⟨.BruteForce, ['a'], ['/'], 1000, 1 / 2⟩ : Trigger) with
          confidence := max (1 / 2 : ℚ) (9 / 10) }] :=
  emit_coalesce _ _ rfl rfl rfl (by decide) (by decide)

/-- C3: the signature classifier is deterministic: two runs on the same
record return identical hit sets with identical combined confidence; the
model is a pure function of the record with no randomness or external
state, as the spec requires. -/
theorem classify_deterministic (r₁ r₂ : LogRecord) (h : r₁ = r₂) :
    classify r₁ = classify r₂ ∧
      combinedConfidence (classify r₁) = combinedConfidence (classify r₂) := by
  subst h
  exact ⟨rfl, rfl⟩

/-- Witness for the C3 theorem at a concrete record carrying a SQL
injection marker in its query string. -/
theorem classify_deterministic_witness :
    classify ⟨0, ['a'], [], ['/', 'x'], ['\'', ' ', 'o', 'r', ' ', '\''], [], 200, 0, [], [], none, 0, 0⟩ =
      classify ⟨0, ['a'], [], ['/', 'x'], ['\'', ' ', 'o', 'r', ' ', '\''], [], 200, 0, [], [], none, 0, 0⟩ ∧
    combinedConfidence (classify ⟨0, ['a'], [], ['/', 'x'], ['\'', ' ', 'o', 'r', ' ', '\''], [], 200, 0, [], [], none, 0, 0⟩) =
      combinedConfidence (classify ⟨0, ['a'], [], ['/', 'x'], ['\'', ' ', 'o', 'r', ' ', '\''], [], 200, 0, [], [], none, 0, 0⟩) :=
  classify_deterministic _ _ rfl

/-- The request counter of a fold of bucket updates counts the folded
records. -/
theorem foldl_bucketUpdate_request (l : List LogRecord) (b : MetricsBucket) :
    (l.foldl bucketUpdate b).request_count = b.request_count + l.length := by
  induction l generalizing b with
  | nil => simp
  | cons r rl ih =>
    simp only [List.foldl_cons, ih, bucketUpdate, List.length_cons]
    omega

/-- The error counter of a fold of bucket updates counts the folded
error records. -/
theorem foldl_bucketUpdate_error (l : List LogRecord) (b : MetricsBucket) :
    (l.foldl bucketUpdate b).error_count = b.error_count + l.countP (fun r => isError r) := by
  induction l generalizing b with
  | nil => simp
  | cons r rl ih =>
    simp only [List.foldl_cons, ih, bucketUpdate, List.countP_cons]
    by_cases hr : isError r = true <;> simp [hr] <;> omega

/-- The byte counter of a fold of bucket updates accumulates the folded
records' bytes. -/
theorem foldl_bucketUpdate_bytes (l : List LogRecord) (b : MetricsBucket) :
    (l.foldl bucketUpdate b).bytes_total = b.bytes_total + (l.map fun r => r.bytes_sent).sum := by
  induction l generalizing b with
  | nil => simp
  | cons r rl ih =>
    simp only [List.foldl_cons, ih, bucketUpdate, List.map_cons, List.sum_cons]
    omega

/-- Summing a weight over a filtered list equals summing the indicator
weight over the whole list. -/
theorem sum_map_filter_eq {M : Type} [AddCommMonoid M] (p : LogRecord → Bool)
    (w : LogRecord → M) (l : List LogRecord) :
    ((l.filter p).map w).sum = (l.map fun r => if p r then w r else 0).sum := by
  induction l with
  | nil => simp
  | cons r rl ih => by_cases hr : p r = true <;> simp [List.filter_cons, hr, ih]

/-- A finite sum of list sums commutes to a list sum of finite sums. -/
theorem sum_swap_list {M : Type} [AddCommMonoid M] (s : Finset ℕ)
    (f : ℕ → LogRecord → M) (l : List LogRecord) :
    (∑ i in s, (l.map (f i)).sum) = (l.map fun r => ∑ i in s, f i r).sum := by
  induction l with
  | nil => simp
  | cons r rl ih => simp [List.map_cons, List.sum_cons, Finset.sum_add_distrib, ih]

/-- Summing the indicator of membership in one of 24 consecutive slots
collapses to the indicator of the covering 24-slot block. -/
theorem indicator_sum_range24 {M : Type} [AddCommMonoid M] (h d : Nat) (x : M) :
    (∑ i in Finset.range 24, if h == 24 * d + i then x else 0) =
      if h / 24 == d then x else 0 := by
  by_cases hd : h / 24 = d
  · have hmem : h % 24 ∈ Finset.range 24 := Finset.mem_range.mpr (Nat.mod_lt _ (by norm_num))
    rw [Finset.sum_eq_single (h % 24)]
    · have h1 : (h == 24 * d + h % 24) = true := by
        simp only [beq_iff_eq]
        omega
      have h2 : (h / 24 == d) = true := by
        simp only [beq_iff_eq]
        exact hd
      rw [if_pos h1, if_pos h2]
    · intro j hj hne
      have hj24 : j < 24 := Finset.mem_range.mp hj
      rw [if_neg]
      simp only [beq_iff_eq]
      omega
    · intro habs
      exact absurd hmem habs
  · have hrhs : ¬ ((h / 24 == d) = true) := by
      simp only [beq_iff_eq]
      exact hd
    rw [if_neg hrhs]
    apply Finset.sum_eq_zero
    intro i hi
    have hi24 : i < 24 := Finset.mem_range.mp hi
    rw [if_neg]
    simp only [beq_iff_eq]
    intro heq
    exact hd (by omega)

/-- An hour slot determines the day slot by division by 24. -/
theorem slotOf_hour_div (ts : Nat) : slotOf .hour ts / 24 = slotOf .day ts := by
  simp only [slotOf, slotMs]
  rw [Nat.div_div_eq_div_mul]

/-- Summing any weight over the 24 hour slots of one day equals summing
it over the day slot. -/
theorem hour_day_weight {M : Type} [AddCommMonoid M] (w : LogRecord → M)
    (events : List LogRecord) (d : Nat) :
    (∑ i in Finset.range 24,
        ((events.filter fun r => slotOf .hour r.timestamp == 24 * d + i).map w).sum) =
      ((events.filter fun r => slotOf .day r.timestamp == d).map w).sum := by
  rw [sum_map_filter_eq (fun r => slotOf .day r.timestamp == d) w events]
  have hstep : ∀ i : ℕ,
      ((events.filter fun r => slotOf .hour r.timestamp == 24 * d + i).map w).sum =
        (events.map fun r => if slotOf .hour r.timestamp == 24 * d + i then w r else 0).sum :=
    fun i => sum_map_filter_eq _ w events
  rw [Finset.sum_congr rfl fun i _ => hstep i, sum_swap_list]
  refine congrArg List.sum ?_
  congr 1
  funext r
  rw [indicator_sum_range24 (slotOf .hour r.timestamp) d (w r), slotOf_hour_div]

/-- Summing the constant weight one recovers the length. -/
theorem length_eq_sum_ones (l : List LogRecord) :
    ((l.map fun _ => (1 : Nat)).sum) = l.length := by
  induction l with
  | nil => rfl
  | cons r rl ih =>
    simp [ih]
    omega

/-- Summing the boolean indicator weight recovers countP. -/
theorem countP_eq_sum_map (p : LogRecord → Bool) (l : List LogRecord) :
    ((l.map fun r => if p r then (1 : Nat) else 0).sum) = l.countP p := by
  induction l with
  | nil => rfl
  | cons r rl ih => by_cases hr : p r = true <;> simp [List.countP_cons, hr, ih] <;> omega

/-- Request counter of a bucket as a weighted sum. -/
theorem bucketOf_request (g : Granularity) (events : List LogRecord) (s : Nat) :
    (bucketOf g events s).request_count =
      ((events.filter fun r => slotOf g r.timestamp == s).map fun _ => (1 : Nat)).sum := by
  rw [bucketOf, foldl_bucketUpdate_request, length_eq_sum_ones]
  simp [zeroBucket]

/-- Error counter of a bucket as a weighted sum. -/
theorem bucketOf_error (g : Granularity) (events : List LogRecord) (s : Nat) :
    (bucketOf g events s).error_count =
      ((events.filter fun r => slotOf g r.timestamp == s).map
        fun r => if isError r then (1 : Nat) else 0).sum := by
  rw [bucketOf, foldl_bucketUpdate_error, countP_eq_sum_map]
  simp [zeroBucket]

/-- Byte counter of a bucket as a weighted sum. -/
theorem bucketOf_bytes (g : Granularity) (events : List LogRecord) (s : Nat) :
    (bucketOf g events s).bytes_total =
      ((events.filter fun r => slotOf g r.timestamp == s).map fun r => r.bytes_sent).sum := by
  rw [bucketOf, foldl_bucketUpdate_bytes]
  simp [zeroBucket]

/-- C4: over any span of 24 consecutive hour buckets aligned to one
day, the sums of request_count, error_count and bytes_total equal the
corresponding counters of the covering day bucket. -/
theorem hour_day_roundtrip (events : List LogRecord) (d : Nat) :
    (∑ i in Finset.range 24, (bucketOf .hour events (24 * d + i)).request_count) =
        (bucketOf .day events d).request_count ∧
    (∑ i in Finset.range 24, (bucketOf .hour events (24 * d + i)).error_count) =
        (bucketOf .day events d).error_count ∧
    (∑ i in Finset.range 24, (bucketOf .hour events (24 * d + i)).bytes_total) =
        (bucketOf .day events d).bytes_total := by
  refine ⟨?_, ?_, ?_⟩
  · rw [Finset.sum_congr rfl fun i _ => bucketOf_request .hour events (24 * d + i),
      bucketOf_request .day events d]
    exact hour_day_weight (fun _ => (1 : Nat)) events d
  · rw [Finset.sum_congr rfl fun i _ => bucketOf_error .hour events (24 * d + i),
      bucketOf_error .day events d]
    exact hour_day_weight (fun r => if isError r then (1 : Nat) else 0) events d
  · rw [Finset.sum_congr rfl fun i _ => bucketOf_bytes .hour events (24 * d + i),
      bucketOf_bytes .day events d]
    exact hour_day_weight (fun r => r.bytes_sent) events d

/-- C5: a range query returns one bucket per slot covering the range,
slots without events are filled with the zero bucket, and a one-hour
range with no events yields exactly one zero-valued bucket, never an
empty series. -/
theorem query_fills (g : Granularity) (events : List LogRecord) (s len : Nat) :
    (query g events s len).length = len ∧
    (∀ i, i < len → (events.filter fun r => slotOf g r.timestamp == s + i) = [] →
      (query g events s len).get? i = some zeroBucket) ∧
    ((events.filter fun r => slotOf g r.timestamp == s) = [] →
      query g events s 1 = [zeroBucket]) := by
  refine ⟨by simp [query], ?_, ?_⟩
  · intro i hi hempty
    rw [query, List.get?_map, List.get?_range hi]
    show some (bucketOf g events (s + i)) = some zeroBucket
    rw [bucketOf, hempty]
    rfl
  · intro hempty
    rw [query]
    have h1 : List.range 1 = [0] := rfl
    rw [h1]
    simp only [List.map_cons, List.map_nil, Nat.add_zero]
    rw [bucketOf, hempty]
    rfl

/-- Witness for the C5 theorem: the spec's example scenario, a one-hour
query on an empty store, returns the singleton zero bucket. -/
theorem query_fills_witness :
    query Granularity.hour [] 9 1 = [zeroBucket] :=
  (query_fills .hour [] 9 1).2.2 rfl

/-- C6: when the failed-auth count for an IP exceeds the threshold
inside the active window, the brute-force observer produces exactly one
BruteForce hit whose confidence is the count-over-threshold ratio; that
confidence is monotonically non-decreasing in the count and never
exceeds 1. -/
theorem bruteforce_hits (tAuth : Nat) (events : List LogRecord) (ip : List Char)
    (now window : Nat) (ht : 0 < tAuth)
    (hn : tAuth < authFailCount events ip now window) :
    observeBruteForce tAuth events ip now window =
      [{ attack := .BruteForce, client_ip := ip,
         confidence := bruteForceConfidence tAuth (authFailCount events ip now window) }] ∧
    (∀ n₁ n₂ : Nat, n₁ ≤ n₂ →
        bruteForceConfidence tAuth n₁ ≤ bruteForceConfidence tAuth n₂) ∧
    (∀ n : Nat, bruteForceConfidence tAuth n ≤ 1) := by
  refine ⟨?_, ?_, ?_⟩
  · rw [observeBruteForce]
    rw [if_pos hn]
  · intro n₁ n₂ hle
    unfold bruteForceConfidence
    have htq : (0 : ℚ) < (tAuth : ℚ) := by exact_mod_cast ht
    have hdiv : (n₁ : ℚ) / (tAuth : ℚ) ≤ (n₂ : ℚ) / (tAuth : ℚ) :=
      (div_le_div_right htq).mpr (by exact_mod_cast hle)
    exact min_le_min hdiv le_rfl
  · intro n
    exact min_le_right _ _

/-- Witness for the C6 theorem: two failed-auth events for one IP
against a threshold of 1 yield the single BruteForce hit. -/
theorem bruteforce_hits_witness :
    observeBruteForce 1
        [⟨0, ['a'], [], [], [], [], 401, 0, [], [], none, 0, 0⟩,
         ⟨0, ['a'], [], [], [], [], 403, 0, [], [], none, 0, 1⟩] ['a'] 0 300000 =
      [⟨.BruteForce, ['a'],
        bruteForceConfidence 1 (authFailCount
          [⟨0, ['a'], [], [], [], [], 401, 0, [], [], none, 0, 0⟩,
           ⟨0, ['a'], [], [], [], [], 403, 0, [], [], none, 0, 1⟩] ['a'] 0 300000)⟩] ∧
    bruteForceConfidence 1 5 ≤ 1 :=
  ⟨(bruteforce_hits 1
      [⟨0, ['a'], [], [], [], [], 401, 0, [], [], none, 0, 0⟩,
       ⟨0, ['a'], [], [], [], [], 403, 0, [], [], none, 0, 1⟩] ['a'] 0 300000
      (by decide) (by decide)).1,
   (bruteforce_hits 1
      [⟨0, ['a'], [], [], [], [], 401, 0, [], [], none, 0, 0⟩,
       ⟨0, ['a'], [], [], [], [], 403, 0, [], [], none, 0, 1⟩] ['a'] 0 300000
      (by decide) (by decide)).2.2 5⟩

/-- Splitting a list by a boolean predicate partitions its length. -/
theorem length_filter_add_not (p : Option RawFields → Bool) (l : List (Option RawFields)) :
    (l.filter p).length + (l.filter fun x => !p x).length = l.length := by
  induction l with
  | nil => rfl
  | cons x xs ih =>
    by_cases hp : p x = true <;> simp [List.filter_cons, hp] <;> omega

/-- C7: batch ingestion returns exactly one summary per ingested file,
and each summary carries the four fields lines_total, parsed_ok,
parse_errors and content_hash, determined by that file: the line count,
the partition of lines into parsed and failed, and the content hash. -/
theorem batch_summary (files : List SourceFile) :
    (batchIngest files).length = files.length ∧
    ∀ i (hi : i < files.length),
      (batchIngest files).get? i = some (summarizeFile (files.get ⟨i, hi⟩)) ∧
      (summarizeFile (files.get ⟨i, hi⟩)).lines_total = (files.get ⟨i, hi⟩).lines.length ∧
      (summarizeFile (files.get ⟨i, hi⟩)).parsed_ok +
          (summarizeFile (files.get ⟨i, hi⟩)).parse_errors =
        (summarizeFile (files.get ⟨i, hi⟩)).lines_total ∧
      (summarizeFile (files.get ⟨i, hi⟩)).content_hash =
        contentHash (files.get ⟨i, hi⟩).content := by
  refine ⟨by simp [batchIngest], ?_⟩
  intro i hi
  refine ⟨?_, rfl, ?_, rfl⟩
  · rw [batchIngest, List.get?_map, List.get?_eq_get hi]
    rfl
  · exact length_filter_add_not (fun l => parsedOk l) (files.get ⟨i, hi⟩).lines

/-- Witness for the C7 theorem: a one-file batch with a single
unparsable line. -/
theorem batch_summary_witness :
    (batchIngest [⟨0, [none], ['h', 'i']⟩]).get? 0 =
        some (summarizeFile (⟨0, [none], ['h', 'i']⟩ : SourceFile)) ∧
    (summarizeFile (⟨0, [none], ['h', 'i']⟩ : SourceFile)).parsed_ok +
        (summarizeFile (⟨0, [none], ['h', 'i']⟩ : SourceFile)).parse_errors =
      (summarizeFile (⟨0, [none], ['h', 'i']⟩ : SourceFile)).lines_total :=
  ⟨((batch_summary [⟨0, [none], ['h', 'i']⟩]).2 0 (by decide)).1,
   ((batch_summary [⟨0, [none], ['h', 'i']⟩]).2 0 (by decide)).2.2.1⟩

end ForenX
